import Mathlib

/-!
Verification of the numeric sampling core of `Riemman3D.py`.

The Python core is embedded shallowly:
* real numbers produced by the program (slider values, `np.linspace` nodes,
  mpmath magnitudes at finite working precision) are modelled as rationals `ℚ`;
* the zeta evaluator `abs(mpmath.zeta(s))` at `s = σ + i t` is an abstract
  parameter `ℚ → ℚ → Option ℚ`, where `none` models a raised exception /
  unevaluable point and `some v` a successfully computed magnitude;
* a `none` entry of the magnitude surface models the `np.nan` sentinel;
* Python code that can raise an uncaught exception is embedded in `Option`,
  with `none` for "an exception escaped".
-/

namespace Riemman3D

/-- Embedding of `np.linspace(start, stop, num)` (with `endpoint=True`, the
default used by the program): `num` evenly spaced rationals from `start` to
`stop` inclusive; `num = 0` gives the empty vector and `num = 1` gives
`[start]`, exactly as numpy does. -/
def linspace (start stop : ℚ) (num : ℕ) : List ℚ :=
  if num = 0 then []
  else if num = 1 then [start]
  else (List.range num).map
    (fun i : ℕ => start + (i : ℚ) * (stop - start) / ((num - 1 : ℕ) : ℚ))

/-- Embedding of line 20 of `Riemman3D.py`: `sigma_min_adj = max(0.01, sigma_min)`. -/
def sigma_min_adj (sigma_min : ℚ) : ℚ := max (1/100) sigma_min

/-- Embedding of line 21 of `Riemman3D.py`:
`sigma_max_adj = min(0.99, sigma_max) if sigma_max >= 1.0 else sigma_max`. -/
def sigma_max_adj (sigma_max : ℚ) : ℚ :=
  if 1 ≤ sigma_max then min (99/100) sigma_max else sigma_max

/-- The σ-coordinate vector built on line 23 of `Riemman3D.py`:
`np.linspace(sigma_min_adj, sigma_max_adj, num_points_sigma)`. -/
def sigma_values (sigma_min sigma_max : ℚ) (num_points_sigma : ℕ) : List ℚ :=
  linspace (sigma_min_adj sigma_min) (sigma_max_adj sigma_max) num_points_sigma

/-- The t-coordinate vector built on line 24 of `Riemman3D.py`:
`np.linspace(0.1, t_max, num_points_t)`. The lower bound `0.1` is a fixed
constant; the function has no requested-lower-bound parameter at all. -/
def t_values (t_max : ℚ) (num_points_t : ℕ) : List ℚ :=
  linspace (1/10) t_max num_points_t

/-- First output of `np.meshgrid(sigma_values, t_values)` (line 26):
`X[i, j] = sigma_values[j]`. -/
def meshgridX (sv tv : List ℚ) : List (List ℚ) :=
  tv.map (fun _ => sv)

/-- Second output of `np.meshgrid(sigma_values, t_values)` (line 26):
`Y[i, j] = t_values[i]`. -/
def meshgridY (sv tv : List ℚ) : List (List ℚ) :=
  tv.map (fun t => sv.map (fun _ => t))

/-- The double sampling loop of lines 35-41 of `Riemman3D.py`: for every grid
cell, `try: Z[i, j] = abs(mpmath.zeta(complex(X[i,j], Y[i,j]))) except:
Z[i, j] = np.nan`. The abstract evaluator `f σ t` returns `none` when the
evaluation raises (any exception) and `some v` on success, so an entry `none`
of the result is exactly the NaN sentinel. -/
def zGrid (f : ℚ → ℚ → Option ℚ) (X Y : List (List ℚ)) : List (List (Option ℚ)) :=
  List.zipWith (fun xr yr => List.zipWith (fun x y => f x y) xr yr) X Y

/-- One observable emission on the progress side-channel: `report q` models
`st.progress(q, ...)` and `clear` models `progress_bar.empty()`. -/
inductive ProgressEvent where
  | report (fraction : ℚ)
  | clear
deriving DecidableEq

/-- The values taken by `completed_points` at which the loop of lines 35-45 of
`Riemman3D.py` reports progress (`completed_points % 100 == 0`): the multiples
of 100 among `1, ..., total`. -/
def reportCounts (total : ℕ) : List ℕ :=
  ((List.range total).map (fun k => k + 1)).filter (fun c => c % 100 = 0)

/-- The full sequence of progress-channel events of one `compute_zeta_surface`
call: the initial `st.progress(0, ...)` of line 30, then one
`progress_bar.progress(completed_points / total_points, ...)` per multiple of
100 reached by `completed_points` (lines 44-45), then the final
`progress_bar.empty()` of line 47. -/
def progressTrace (total : ℕ) : List ProgressEvent :=
  ProgressEvent.report 0 ::
    (reportCounts total).map (fun c : ℕ => ProgressEvent.report ((c : ℚ) / (total : ℚ)))
      ++ [ProgressEvent.clear]

/-- The fractions shown on the progress bar, in emission order. -/
def reportedFractions : List ProgressEvent → List ℚ
  | [] => []
  | ProgressEvent.report q :: rest => q :: reportedFractions rest
  | ProgressEvent.clear :: rest => reportedFractions rest

/-- Everything `compute_zeta_surface` returns (line 48 of `Riemman3D.py`),
together with the progress events it emitted on the side channel while
running. -/
structure SurfaceResult where
  X : List (List ℚ)
  Y : List (List ℚ)
  Z : List (List (Option ℚ))
  sigma_values : List ℚ
  t_values : List ℚ
  progress : List ProgressEvent
deriving DecidableEq

/-- Embedding of `compute_zeta_surface` (lines 17-48 of `Riemman3D.py`),
parameterized by the abstract per-point evaluator `f` standing for
`abs(mpmath.zeta(complex(sigma, t)))` (with `none` for a raised exception).
The function performs no input validation, builds the clamped coordinate
vectors, sweeps the whole grid with per-point exception containment, and
always runs to completion. -/
def compute_zeta_surface (f : ℚ → ℚ → Option ℚ)
    (sigma_min sigma_max t_max : ℚ) (num_points_sigma num_points_t : ℕ) :
    SurfaceResult :=
  let sv := sigma_values sigma_min sigma_max num_points_sigma
  let tv := t_values t_max num_points_t
  let X := meshgridX sv tv
  let Y := meshgridY sv tv
  { X := X
    Y := Y
    Z := zGrid f X Y
    sigma_values := sv
    t_values := tv
    progress := progressTrace (tv.length * sv.length) }

/-- The fixed abscissa of the critical line, line 66 of `Riemman3D.py`. -/
def critical_sigma : ℚ := 1/2

/-- The critical line's own t-coordinate vector, line 68 of `Riemman3D.py`:
`np.linspace(0.1, t_max, 100)` — a hard-coded resolution of 100 points,
independent of the main grid's resolutions. -/
def critical_line_t (t_max : ℚ) : List ℚ :=
  linspace (1/10) t_max 100

/-- The critical-line evaluation loop of lines 71-73 of `Riemman3D.py`:
`for i, t in ...: critical_line_z[i] = abs(mpmath.zeta(complex(0.5, t)))`.
There is NO try/except around this loop, so the first evaluation that raises
aborts the whole pass: that is modelled by the `none` result. -/
def evalAll (g : ℚ → Option ℚ) : List ℚ → Option (List ℚ)
  | [] => some []
  | t :: rest =>
    match g t with
    | none => none
    | some v =>
      match evalAll g rest with
      | none => none
      | some vs => some (v :: vs)

/-- The critical-line overlay data of the figure: the `x`, `y`, `z` lists of
the `go.Scatter3d` built on lines 75-84 of `Riemman3D.py`. -/
structure CriticalLine where
  x : List ℚ
  y : List ℚ
  z : List ℚ
deriving DecidableEq

/-- Embedding of `create_zeta_plot` (lines 50-102 of `Riemman3D.py`),
restricted to its numeric content: it first calls `compute_zeta_surface`,
then — when `sigma_min <= 0.5 <= sigma_max`, tested on the raw, unclamped
bounds — evaluates the critical line over its own 100-point t-vector with no
per-point exception handling (a failure there escapes the call, modelled by
`none`); otherwise it builds an empty `Scatter3d`. -/
def create_zeta_plot (f : ℚ → ℚ → Option ℚ)
    (sigma_min sigma_max t_max : ℚ) (num_points_sigma num_points_t : ℕ) :
    Option (SurfaceResult × CriticalLine) :=
  let r := compute_zeta_surface f sigma_min sigma_max t_max
    num_points_sigma num_points_t
  if sigma_min ≤ critical_sigma ∧ critical_sigma ≤ sigma_max then
    match evalAll (fun t => f critical_sigma t) (critical_line_t t_max) with
    | none => none
    | some zs =>
      some (r,
        { x := (critical_line_t t_max).map (fun _ => critical_sigma)
          y := critical_line_t t_max
          z := zs })
  else
    some (r, { x := [], y := [], z := [] })

/-- Interface model of `abs(mpmath.zeta(s))`: an evaluator together with the
fact (true of any absolute value computed by mpmath) that every successfully
returned magnitude is nonnegative. -/
structure ZetaEvaluator where
  eval : ℚ → ℚ → Option ℚ
  nonneg : ∀ σ t v, eval σ t = some v → 0 ≤ v

/-- A trivial evaluator (everywhere `some 0`), used to instantiate theorems
about arbitrary evaluators at a concrete input. -/
def zeroEvaluator : ZetaEvaluator where
  eval := fun _ _ => some 0
  nonneg := by
    intro σ t v hv
    injection hv with h
    exact h ▸ le_rfl

/-- A value as actually stored into the float64 array `Z` by line 39 of
`Riemman3D.py`: a finite float64 magnitude (represented exactly as a
rational), the saturated overflow value `inf`, or the `nan` sentinel written
by the `except` branch. -/
inductive StoredValue where
  | finite (v : ℚ)
  | inf
  | nan
deriving DecidableEq

/-- Whether a stored cell is the NaN sentinel. -/
def StoredValue.isNan : StoredValue → Bool
  | StoredValue.nan => true
  | _ => false

/-- Whether a stored cell is a finite value. -/
def StoredValue.isFinite : StoredValue → Bool
  | StoredValue.finite _ => true
  | _ => false

/-- The largest finite float64 value, `(2 - 2^-52) * 2^1023`. -/
def float64Max : ℚ := (2^53 - 1) * 2^971

/-- The float64 store semantics of the assignment `Z[i, j] = abs(...)` on
line 39 of `Riemman3D.py`: `Z` is a float64 numpy array, so the nonnegative
mpf magnitude is converted with `float()`, which saturates to `inf` above the
float64 maximum WITHOUT raising (mpmath's non-strict conversion), so the bare
`except` does not fire on overflow; an exception inside the `try` body stores
the `nan` sentinel instead. Rounding of in-range magnitudes is not modelled
(identity on ℚ). -/
def store (m : Option ℚ) : StoredValue :=
  match m with
  | none => StoredValue.nan
  | some v => if float64Max < v then StoredValue.inf else StoredValue.finite v

/-- The magnitude surface as actually held in the float64 array `Z` after the
sweep of lines 35-41: the exact magnitude surface with every cell passed
through the float64 store. -/
def surfaceZ64 (f : ℚ → ℚ → Option ℚ) (sigma_min sigma_max t_max : ℚ)
    (num_points_sigma num_points_t : ℕ) : List (List StoredValue) :=
  ((compute_zeta_surface f sigma_min sigma_max t_max num_points_sigma
      num_points_t).Z).map (fun row => row.map store)

theorem linspace_length (a b : ℚ) (n : ℕ) : (linspace a b n).length = n := by
  unfold linspace
  rcases Nat.eq_zero_or_pos n with h0 | h0
  · simp [h0]
  rcases Nat.lt_or_ge n 2 with h1 | h1
  · interval_cases n
    simp
  · rw [if_neg (by omega), if_neg (by omega)]
    simp

theorem linspace_eq_map (a b : ℚ) (n : ℕ) (h : 2 ≤ n) :
    linspace a b n =
      (List.range n).map
        (fun i : ℕ => a + (i : ℚ) * (b - a) / ((n - 1 : ℕ) : ℚ)) := by
  unfold linspace
  rw [if_neg (by omega), if_neg (by omega)]

theorem linspace_head? (a b : ℚ) (n : ℕ) (h : 1 ≤ n) :
    (linspace a b n).head? = some a := by
  rcases Nat.lt_or_ge n 2 with h1 | h1
  · have : n = 1 := by omega
    subst this
    simp [linspace]
  · rw [linspace_eq_map a b n h1]
    obtain ⟨m, rfl⟩ : ∃ m, n = m + 1 := ⟨n - 1, by omega⟩
    rw [List.range_succ_eq_map]
    simp

theorem linspace_getLast? (a b : ℚ) (n : ℕ) (h : 2 ≤ n) :
    (linspace a b n).getLast? = some b := by
  rw [linspace_eq_map a b n h]
  obtain ⟨m, rfl⟩ : ∃ m, n = m + 1 := ⟨n - 1, by omega⟩
  rw [List.range_succ, List.map_append]
  simp only [List.map_cons, List.map_nil, List.getLast?_concat]
  have hm : ((m : ℚ)) ≠ 0 := by
    have hm1 : 0 < m := by omega
    exact_mod_cast hm1.ne'
  have hmn : (m + 1 - 1 : ℕ) = m := by omega
  rw [hmn, mul_comm, mul_div_assoc, div_self hm, mul_one]
  ring_nf

theorem linspace_getElem? (a b : ℚ) (n : ℕ) (h : 2 ≤ n) (i : ℕ) (hi : i < n) :
    (linspace a b n)[i]? = some (a + (i : ℚ) * (b - a) / ((n - 1 : ℕ) : ℚ)) := by
  rw [linspace_eq_map a b n h, List.getElem?_map, List.getElem?_range hi]
  rfl

theorem linspace_pairwise_lt (a b : ℚ) (n : ℕ) (hab : a < b) :
    (linspace a b n).Pairwise (· < ·) := by
  rcases Nat.lt_or_ge n 2 with h1 | h1
  · interval_cases n <;> simp [linspace]
  rw [linspace_eq_map a b n h1]
  refine List.Pairwise.map _ ?_ (List.pairwise_lt_range n)
  intro i j hij
  have hd : (0 : ℚ) < ((n - 1 : ℕ) : ℚ) := by
    have h2 : 0 < n - 1 := by omega
    exact_mod_cast h2
  have hba : (0 : ℚ) < b - a := sub_pos.mpr hab
  have hcast : (i : ℚ) < (j : ℚ) := by exact_mod_cast hij
  gcongr

theorem linspace_even_spacing (a b : ℚ) (n : ℕ) (h : 2 ≤ n) :
    List.Chain' (fun x y => y - x = (b - a) / ((n - 1 : ℕ) : ℚ)) (linspace a b n) := by
  rw [linspace_eq_map a b n h, List.chain'_map, List.chain'_iff_get]
  intro i hi
  simp only [List.get_range]
  have hd : ((n - 1 : ℕ) : ℚ) ≠ 0 := by
    have h2 : 0 < n - 1 := by omega
    exact_mod_cast h2.ne'
  field_simp
  ring

theorem sigma_values_length (sm sM : ℚ) (n : ℕ) :
    (sigma_values sm sM n).length = n :=
  linspace_length _ _ _

theorem t_values_length (tM : ℚ) (n : ℕ) :
    (t_values tM n).length = n :=
  linspace_length _ _ _

theorem zipWith_apply_const (f : ℚ → ℚ → Option ℚ) (t : ℚ) (sv : List ℚ) :
    List.zipWith (fun x y => f x y) sv (sv.map (fun _ => t)) =
      sv.map (fun σ => f σ t) := by
  induction sv with
  | nil => rfl
  | cons a l ih => simp only [List.map_cons, List.zipWith_cons_cons, ih]

theorem zGrid_meshgrid (f : ℚ → ℚ → Option ℚ) (sv tv : List ℚ) :
    zGrid f (meshgridX sv tv) (meshgridY sv tv) =
      tv.map (fun t => sv.map (fun σ => f σ t)) := by
  unfold zGrid meshgridX meshgridY
  induction tv with
  | nil => rfl
  | cons t ts ih => simp only [List.map_cons, List.zipWith_cons_cons, ih,
      zipWith_apply_const]

theorem surface_Z_eq (f : ℚ → ℚ → Option ℚ) (sm sM tM : ℚ) (nσ nt : ℕ) :
    (compute_zeta_surface f sm sM tM nσ nt).Z =
      (t_values tM nt).map
        (fun t => (sigma_values sm sM nσ).map (fun σ => f σ t)) := by
  unfold compute_zeta_surface
  exact zGrid_meshgrid f _ _

theorem surface_Z_shape (f : ℚ → ℚ → Option ℚ) (sm sM tM : ℚ) (nσ nt : ℕ) :
    (compute_zeta_surface f sm sM tM nσ nt).Z.map List.length =
      List.replicate nt nσ := by
  rw [surface_Z_eq, List.map_map]
  have hfn : (List.length ∘ fun t => (sigma_values sm sM nσ).map (fun σ => f σ t)) =
      fun _ : ℚ => nσ := by
    funext t
    simp [sigma_values_length]
  rw [hfn]
  rw [List.map_const']
  rw [t_values_length]

theorem surface_progress_eq (f : ℚ → ℚ → Option ℚ) (sm sM tM : ℚ) (nσ nt : ℕ) :
    (compute_zeta_surface f sm sM tM nσ nt).progress =
      progressTrace (nt * nσ) := by
  show progressTrace ((t_values tM nt).length * (sigma_values sm sM nσ).length) =
    progressTrace (nt * nσ)
  rw [t_values_length, sigma_values_length]

theorem progressTrace_getLast? (total : ℕ) :
    (progressTrace total).getLast? = some ProgressEvent.clear := by
  unfold progressTrace
  exact List.getLast?_concat _

theorem evalAll_eq_none_of_mem (g : ℚ → Option ℚ) (l : List ℚ) (t : ℚ)
    (ht : t ∈ l) (hg : g t = none) : evalAll g l = none := by
  induction l with
  | nil => cases ht
  | cons a rest ih =>
    rcases List.mem_cons.mp ht with rfl | hmem
    · simp [evalAll, hg]
    · unfold evalAll
      cases hga : g a with
      | none => rfl
      | some v => rw [ih hmem]

theorem evalAll_of_all_some (g : ℚ → Option ℚ) (l : List ℚ)
    (h : ∀ t ∈ l, (g t).isSome) :
    ∃ vs, evalAll g l = some vs ∧ vs.length = l.length := by
  induction l with
  | nil => exact ⟨[], rfl, rfl⟩
  | cons a rest ih =>
    obtain ⟨v, hv⟩ := Option.isSome_iff_exists.mp (h a (List.mem_cons_self a rest))
    obtain ⟨vs, hvs, hlen⟩ := ih (fun t ht => h t (List.mem_cons_of_mem a ht))
    refine ⟨v :: vs, ?_, by simp [hlen]⟩
    unfold evalAll
    rw [hv, hvs]

theorem evalAll_const (c : ℚ) (l : List ℚ) :
    evalAll (fun _ => some c) l = some (l.map (fun _ => c)) := by
  induction l with
  | nil => rfl
  | cons a rest ih =>
    show evalAll (fun _ => some c) (a :: rest) = _
    unfold evalAll
    rw [ih]
    rfl

theorem mem_critical_line_t_head (t_max : ℚ) : (1/10 : ℚ) ∈ critical_line_t t_max := by
  have hh : (critical_line_t t_max).head? = some (1/10) :=
    linspace_head? _ _ _ (by norm_num)
  exact List.mem_of_mem_head? hh

theorem mem_reportCounts (T c : ℕ) (hc : c ∈ reportCounts T) :
    c % 100 = 0 ∧ 1 ≤ c ∧ c ≤ T := by
  unfold reportCounts at hc
  rw [List.mem_filter] at hc
  obtain ⟨hmem, hmod⟩ := hc
  rw [List.mem_map] at hmem
  obtain ⟨k, hk, rfl⟩ := hmem
  rw [List.mem_range] at hk
  refine ⟨by simpa using hmod, by omega, by omega⟩

theorem reportCounts_pairwise_lt (T : ℕ) : (reportCounts T).Pairwise (· < ·) := by
  unfold reportCounts
  refine List.Pairwise.sublist (List.filter_sublist _) ?_
  refine List.Pairwise.map _ ?_ (List.pairwise_lt_range T)
  intro a b h
  omega

theorem reportCounts_cadence (T : ℕ) :
    List.Chain' (fun a b => a + 100 ≤ b) (0 :: reportCounts T) := by
  have hp : (reportCounts T).Pairwise (fun a b => a + 100 ≤ b) := by
    refine List.Pairwise.imp_of_mem ?_ (reportCounts_pairwise_lt T)
    intro a b ha hb hab
    obtain ⟨ha1, _, _⟩ := mem_reportCounts T a ha
    obtain ⟨hb1, _, _⟩ := mem_reportCounts T b hb
    omega
  rw [List.chain'_cons']
  constructor
  · intro b hb
    obtain ⟨hb1, hb2, _⟩ := mem_reportCounts T b (List.mem_of_mem_head? hb)
    omega
  · exact hp.chain'

theorem reportedFractions_progressTrace (T : ℕ) :
    reportedFractions (progressTrace T) =
      0 :: (reportCounts T).map (fun c : ℕ => (c : ℚ) / (T : ℚ)) := by
  have key : ∀ counts : List ℕ,
      reportedFractions
        ((counts.map (fun c : ℕ => ProgressEvent.report ((c : ℚ) / (T : ℚ))))
          ++ [ProgressEvent.clear]) =
        counts.map (fun c : ℕ => (c : ℚ) / (T : ℚ)) := by
    intro counts
    induction counts with
    | nil => rfl
    | cons a l ih =>
      simp only [List.map_cons, List.cons_append, reportedFractions,
        List.append_eq, ih]
  unfold progressTrace
  rw [List.cons_append]
  show 0 :: reportedFractions _ = _
  rw [key]

theorem reportedFractions_progressTrace_chain (T : ℕ) :
    List.Chain' (· ≤ ·) (reportedFractions (progressTrace T)) := by
  rw [reportedFractions_progressTrace, List.chain'_cons']
  constructor
  · intro b hb
    have hmem := List.mem_of_mem_head? hb
    rw [List.mem_map] at hmem
    obtain ⟨c, _, rfl⟩ := hmem
    positivity
  · rw [List.chain'_map]
    refine List.Pairwise.chain' ?_
    refine List.Pairwise.imp_of_mem ?_ (reportCounts_pairwise_lt T)
    intro a b ha hb hab
    rcases Nat.eq_zero_or_pos T with rfl | hT
    · simp
    · have hT' : (0 : ℚ) < (T : ℕ) := by exact_mod_cast hT
      rw [div_le_div_iff_of_pos_right hT']
      exact_mod_cast hab.le

theorem reportedFractions_progressTrace_le_one (T : ℕ) (q : ℚ)
    (hq : q ∈ reportedFractions (progressTrace T)) : q ≤ 1 := by
  rw [reportedFractions_progressTrace] at hq
  rcases List.mem_cons.mp hq with rfl | hq
  · norm_num
  · rw [List.mem_map] at hq
    obtain ⟨c, hc, rfl⟩ := hq
    obtain ⟨_, h1, h2⟩ := mem_reportCounts T c hc
    have hT : 0 < T := by omega
    rw [div_le_one (by exact_mod_cast hT)]
    exact_mod_cast h2

theorem surface_entry (f : ℚ → ℚ → Option ℚ)
    (sigma_min sigma_max t_max : ℚ) (nσ nt i j : ℕ)
    (hi : i < nt) (hj : j < nσ) :
    ∃ t σ row,
      (t_values t_max nt)[i]? = some t ∧
      (sigma_values sigma_min sigma_max nσ)[j]? = some σ ∧
      (compute_zeta_surface f sigma_min sigma_max t_max nσ nt).Z[i]? = some row ∧
      row[j]? = some (f σ t) := by
  have hti : i < (t_values t_max nt).length := by
    rw [t_values_length]
    exact hi
  have hsj : j < (sigma_values sigma_min sigma_max nσ).length := by
    rw [sigma_values_length]
    exact hj
  refine ⟨(t_values t_max nt)[i], (sigma_values sigma_min sigma_max nσ)[j],
    (sigma_values sigma_min sigma_max nσ).map
      (fun σ => f σ ((t_values t_max nt)[i])), ?_, ?_, ?_, ?_⟩
  · exact List.getElem?_eq_getElem hti
  · exact List.getElem?_eq_getElem hsj
  · rw [surface_Z_eq, List.getElem?_map, List.getElem?_eq_getElem hti]
    rfl
  · rw [List.getElem?_map, List.getElem?_eq_getElem hsj]
    rfl

/-- C1 counterexample: the claim says the returned σ-vector "equals the
requested range exactly when the requested range stays below 1.0", but for the
requested range `[0.005, 0.5]` (entirely below 1.0 and with σ_min ≤ σ_max) the
code still clamps the lower bound to `max(0.01, 0.005) = 0.01`, so the vector
starts at `0.01`, not at the requested `0.005`. -/
theorem c1_counterexample :
    (1/200 : ℚ) ≤ 1/2 ∧ (1/2 : ℚ) < 1 ∧
    (sigma_values (1/200) (1/2) 2).head? = some (1/100) ∧
    (1/100 : ℚ) ≠ 1/200 := by
  refine ⟨by norm_num, by norm_num, ?_, by norm_num⟩
  show (linspace (sigma_min_adj (1/200)) (sigma_max_adj (1/2)) 2).head? =
    some (1/100)
  rw [linspace_head? _ _ _ (by norm_num)]
  have hadj : sigma_min_adj (1/200) = 1/100 := max_eq_left (by norm_num)
  rw [hadj]

/-- C1 (amended): the σ lower bound is always clamped to `max(0.01, σ_min) > 0`
and the σ upper bound is clamped below 1 exactly when `σ_max ≥ 1`; the returned
σ-vector satisfies `0 < first ≤ last < 1` when `σ_max ≥ 1` provided additionally
`σ_min ≤ 0.99`, and equals the requested range exactly when `σ_max < 1` provided
additionally `σ_min ≥ 0.01`. -/
theorem c1_sigma_clamping (sigma_min sigma_max : ℚ) (n : ℕ) (hn : 2 ≤ n) :
    0 < sigma_min_adj sigma_min ∧
    (1 ≤ sigma_max → sigma_max_adj sigma_max < 1) ∧
    (sigma_max < 1 → sigma_max_adj sigma_max = sigma_max) ∧
    (1 ≤ sigma_max → sigma_min ≤ 99/100 →
      ∃ aa bb, (sigma_values sigma_min sigma_max n).head? = some aa ∧
        (sigma_values sigma_min sigma_max n).getLast? = some bb ∧
        0 < aa ∧ aa ≤ bb ∧ bb < 1) ∧
    (sigma_max < 1 → 1/100 ≤ sigma_min →
      sigma_values sigma_min sigma_max n = linspace sigma_min sigma_max n ∧
      (sigma_values sigma_min sigma_max n).head? = some sigma_min ∧
      (sigma_values sigma_min sigma_max n).getLast? = some sigma_max) := by
  have hmin_pos : 0 < sigma_min_adj sigma_min :=
    lt_of_lt_of_le (by norm_num) (le_max_left _ _)
  refine ⟨hmin_pos, ?_, ?_, ?_, ?_⟩
  · intro h
    unfold sigma_max_adj
    rw [if_pos h]
    exact lt_of_le_of_lt (min_le_left _ _) (by norm_num)
  · intro h
    unfold sigma_max_adj
    rw [if_neg (not_le.mpr h)]
  · intro h1 h2
    refine ⟨sigma_min_adj sigma_min, sigma_max_adj sigma_max,
      linspace_head? _ _ _ (by omega), linspace_getLast? _ _ _ hn, hmin_pos, ?_, ?_⟩
    · have haa : sigma_min_adj sigma_min ≤ 99/100 := max_le (by norm_num) h2
      unfold sigma_max_adj
      rw [if_pos h1]
      exact le_min haa (le_trans haa (le_trans (by norm_num) h1))
    · unfold sigma_max_adj
      rw [if_pos h1]
      exact lt_of_le_of_lt (min_le_left _ _) (by norm_num)
  · intro h1 h2
    have hadjmin : sigma_min_adj sigma_min = sigma_min := max_eq_right h2
    have hadjmax : sigma_max_adj sigma_max = sigma_max := by
      unfold sigma_max_adj
      rw [if_neg (not_le.mpr h1)]
    refine ⟨?_, ?_, ?_⟩
    · unfold sigma_values
      rw [hadjmin, hadjmax]
    · unfold sigma_values
      rw [hadjmin, hadjmax]
      exact linspace_head? _ _ _ (by omega)
    · unfold sigma_values
      rw [hadjmin, hadjmax]
      exact linspace_getLast? _ _ _ hn

/-- C1 witness: the amended clamping theorem evaluated at the requested range
`[0.4, 0.6]` with 2 σ-points. -/
theorem c1_sigma_clamping_witness :
    2 ≤ 2 ∧
    (0 < sigma_min_adj (2/5) ∧
     (1 ≤ (3/5 : ℚ) → sigma_max_adj (3/5) < 1) ∧
     ((3/5 : ℚ) < 1 → sigma_max_adj (3/5) = 3/5) ∧
     (1 ≤ (3/5 : ℚ) → (2/5 : ℚ) ≤ 99/100 →
       ∃ aa bb, (sigma_values (2/5) (3/5) 2).head? = some aa ∧
         (sigma_values (2/5) (3/5) 2).getLast? = some bb ∧
         0 < aa ∧ aa ≤ bb ∧ bb < 1) ∧
     ((3/5 : ℚ) < 1 → 1/100 ≤ (2/5 : ℚ) →
       sigma_values (2/5) (3/5) 2 = linspace (2/5) (3/5) 2 ∧
       (sigma_values (2/5) (3/5) 2).head? = some (2/5) ∧
       (sigma_values (2/5) (3/5) 2).getLast? = some (3/5))) :=
  ⟨by norm_num, c1_sigma_clamping (2/5) (3/5) 2 (by norm_num)⟩

/-- C2: on the main grid sweep every per-point failure of the evaluator is
contained: the surface always has full shape `(nt, nσ)` (the loop never
aborts), and the entry at `(i, j)` is exactly the evaluator's result at
`(σ_j, t_i)` — the NaN sentinel (`none`) when that evaluation raised, the
computed value otherwise. The embedding of the `try/except` body is total, so
no per-point exception can escape `compute_zeta_surface`. -/
theorem c2_per_point_containment (f : ℚ → ℚ → Option ℚ)
    (sigma_min sigma_max t_max : ℚ) (nσ nt i j : ℕ)
    (hi : i < nt) (hj : j < nσ) :
    (compute_zeta_surface f sigma_min sigma_max t_max nσ nt).Z.map List.length =
      List.replicate nt nσ ∧
    ∃ t σ row,
      (t_values t_max nt)[i]? = some t ∧
      (sigma_values sigma_min sigma_max nσ)[j]? = some σ ∧
      (compute_zeta_surface f sigma_min sigma_max t_max nσ nt).Z[i]? = some row ∧
      row[j]? = some (f σ t) :=
  ⟨surface_Z_shape f sigma_min sigma_max t_max nσ nt,
    surface_entry f sigma_min sigma_max t_max nσ nt i j hi hj⟩

/-- C2 witness: the containment theorem evaluated for the evaluator that raises
at every point, on a 2×2 grid, at cell (0, 0). -/
theorem c2_per_point_containment_witness :
    ((0 : ℕ) < 2 ∧ (0 : ℕ) < 2) ∧
    ((compute_zeta_surface (fun _ _ => (none : Option ℚ)) (2/5) (3/5) 30 2 2).Z.map
        List.length = List.replicate 2 2 ∧
     ∃ t σ row,
       (t_values 30 2)[0]? = some t ∧
       (sigma_values (2/5) (3/5) 2)[0]? = some σ ∧
       (compute_zeta_surface (fun _ _ => (none : Option ℚ)) (2/5) (3/5) 30 2 2).Z[0]? =
         some row ∧
       row[0]? = some ((fun _ _ => (none : Option ℚ)) σ t)) :=
  ⟨⟨by norm_num, by norm_num⟩,
    c2_per_point_containment (fun _ _ => (none : Option ℚ)) (2/5) (3/5) 30 2 2 0 0
      (by norm_num) (by norm_num)⟩

/-- C3: when the evaluator succeeds along the critical line, the critical-line
sample is produced with exactly its configured resolution of 100 points iff
`σ_min ≤ 0.5 ≤ σ_max` holds for the raw, unclamped requested bounds, and is
empty otherwise. -/
theorem c3_critical_line_length (f : ℚ → ℚ → Option ℚ)
    (sigma_min sigma_max t_max : ℚ) (nσ nt : ℕ)
    (hf : ∀ t, (f critical_sigma t).isSome) :
    ((sigma_min ≤ critical_sigma ∧ critical_sigma ≤ sigma_max) →
      ∃ r cl, create_zeta_plot f sigma_min sigma_max t_max nσ nt = some (r, cl) ∧
        cl.y.length = 100 ∧ cl.z.length = 100 ∧ cl.y ≠ []) ∧
    (¬ (sigma_min ≤ critical_sigma ∧ critical_sigma ≤ sigma_max) →
      create_zeta_plot f sigma_min sigma_max t_max nσ nt =
        some (compute_zeta_surface f sigma_min sigma_max t_max nσ nt,
          { x := [], y := [], z := [] })) := by
  constructor
  · intro hin
    obtain ⟨vs, hvs, hlen⟩ := evalAll_of_all_some (fun t => f critical_sigma t)
      (critical_line_t t_max) (fun t _ => hf t)
    refine ⟨compute_zeta_surface f sigma_min sigma_max t_max nσ nt,
      { x := (critical_line_t t_max).map (fun _ => critical_sigma),
        y := critical_line_t t_max, z := vs }, ?_, ?_, ?_, ?_⟩
    · simp only [create_zeta_plot]
      rw [if_pos hin, hvs]
    · show (critical_line_t t_max).length = 100
      exact linspace_length _ _ _
    · show vs.length = 100
      rw [hlen]
      exact linspace_length _ _ _
    · show critical_line_t t_max ≠ []
      intro hnil
      have h100 : (critical_line_t t_max).length = 100 := linspace_length _ _ _
      rw [hnil] at h100
      simp at h100
  · intro hout
    simp only [create_zeta_plot]
    rw [if_neg hout]

/-- C3 witness: the presence theorem evaluated for the everywhere-successful
zero evaluator at the requested range `[0.4, 0.6]` (which contains 0.5). -/
theorem c3_critical_line_length_witness :
    (∀ t : ℚ, ((fun _ _ => (some 0 : Option ℚ)) critical_sigma t).isSome) ∧
    ((((2/5 : ℚ) ≤ critical_sigma ∧ critical_sigma ≤ (3/5 : ℚ)) →
      ∃ r cl, create_zeta_plot (fun _ _ => (some 0 : Option ℚ)) (2/5) (3/5) 30 2 2 =
          some (r, cl) ∧
        cl.y.length = 100 ∧ cl.z.length = 100 ∧ cl.y ≠ []) ∧
     (¬ ((2/5 : ℚ) ≤ critical_sigma ∧ critical_sigma ≤ (3/5 : ℚ)) →
      create_zeta_plot (fun _ _ => (some 0 : Option ℚ)) (2/5) (3/5) 30 2 2 =
        some (compute_zeta_surface (fun _ _ => (some 0 : Option ℚ)) (2/5) (3/5) 30 2 2,
          { x := [], y := [], z := [] }))) :=
  ⟨fun _ => rfl,
    c3_critical_line_length (fun _ _ => (some 0 : Option ℚ)) (2/5) (3/5) 30 2 2
      (fun _ => rfl)⟩

/-- C4 counterexample: the claim says every surface entry is "either the NaN
sentinel or a finite real number ≥ 0", but the float64 store of line 39
saturates to `inf` on overflow without raising, so the `except` branch does
not fire. The requested σ-range `[-300, -300]` is spec-valid (min ≤ max < 1,
so the upper bound is NOT clamped; only the lower bound is, leaving the last
σ-node at -300 exactly), and there `|ζ(-300 + i t)| ≈ 10^376` for `t ≥ 0.1`
(functional equation: `|2^s π^(s-1) sin(πs/2) Γ(1-s) ζ(1-s)| ≈ Γ(301) ·
2^-300 π^-301 ≈ 10^376`), far above the float64 maximum `≈ 1.8·10^308`; the
evaluator is instantiated with that magnitude. The stored entry is `inf`:
neither the NaN sentinel nor finite. -/
theorem c4_counterexample :
    (-300 : ℚ) ≤ -300 ∧ (-300 : ℚ) < 1 ∧
    sigma_max_adj (-300) = -300 ∧
    (sigma_values (-300) (-300) 2).getLast? = some (-300) ∧
    float64Max < 10^376 ∧
    (∃ row,
      (surfaceZ64 (fun _ _ => (some (10^376) : Option ℚ)) (-300) (-300) 10 2 2)[0]? =
        some row ∧
      row[1]? = some StoredValue.inf) ∧
    StoredValue.inf.isNan = false ∧ StoredValue.inf.isFinite = false := by
  have hflt : float64Max < 10^376 := by norm_num [float64Max]
  have hadjmax : sigma_max_adj (-300 : ℚ) = -300 := by
    unfold sigma_max_adj
    rw [if_neg (by norm_num)]
  refine ⟨le_refl _, by norm_num, hadjmax, ?_, hflt, ?_, rfl, rfl⟩
  · show (linspace (sigma_min_adj (-300)) (sigma_max_adj (-300)) 2).getLast? =
      some (-300)
    rw [linspace_getLast? _ _ _ (by norm_num), hadjmax]
  · obtain ⟨t, σ, row, ht, hσ, hz, hr⟩ :=
      surface_entry (fun _ _ => (some (10^376) : Option ℚ)) (-300) (-300) 10 2 2 0 1
        (by norm_num) (by norm_num)
    refine ⟨row.map store, ?_, ?_⟩
    · unfold surfaceZ64
      rw [List.getElem?_map, hz]
      rfl
    · rw [List.getElem?_map, hr]
      show some (if float64Max < 10^376 then StoredValue.inf
        else StoredValue.finite (10^376)) = some StoredValue.inf
      rw [if_pos hflt]

/-- C4 (amended): for every evaluator that returns absolute values (hence
nonnegative magnitudes on success, as `abs(mpmath.zeta(s))` does), the stored
float64 surface has shape exactly `(t-resolution, σ-resolution)` and every
entry is the NaN sentinel (evaluation raised), or `inf` (the magnitude's
float64 conversion saturated on overflow, raising nothing), or a finite value
`v` with `0 ≤ v ≤ float64Max`. -/
theorem c4_surface_shape_and_entries (E : ZetaEvaluator)
    (sigma_min sigma_max t_max : ℚ) (nσ nt : ℕ) :
    (surfaceZ64 E.eval sigma_min sigma_max t_max nσ nt).map List.length =
      List.replicate nt nσ ∧
    ∀ row ∈ surfaceZ64 E.eval sigma_min sigma_max t_max nσ nt,
      ∀ e ∈ row, e = StoredValue.nan ∨ e = StoredValue.inf ∨
        ∃ v, e = StoredValue.finite v ∧ 0 ≤ v ∧ v ≤ float64Max := by
  constructor
  · unfold surfaceZ64
    rw [List.map_map]
    have hlen : (List.length ∘ fun row : List (Option ℚ) => row.map store) =
        (List.length : List (Option ℚ) → ℕ) := by
      funext row
      simp
    rw [hlen]
    exact surface_Z_shape _ _ _ _ _ _
  · intro row hrow e he
    unfold surfaceZ64 at hrow
    rw [List.mem_map] at hrow
    obtain ⟨row0, hrow0, rfl⟩ := hrow
    rw [List.mem_map] at he
    obtain ⟨x, hx, rfl⟩ := he
    rw [surface_Z_eq, List.mem_map] at hrow0
    obtain ⟨t, ht, rfl⟩ := hrow0
    rw [List.mem_map] at hx
    obtain ⟨σ, hσ, rfl⟩ := hx
    cases hev : E.eval σ t with
    | none => exact Or.inl rfl
    | some v =>
      have hv : 0 ≤ v := E.nonneg σ t v hev
      rcases lt_or_le float64Max v with hbig | hsmall
      · refine Or.inr (Or.inl ?_)
        show (if float64Max < v then StoredValue.inf else StoredValue.finite v) =
          StoredValue.inf
        rw [if_pos hbig]
      · refine Or.inr (Or.inr ⟨v, ?_, hv, hsmall⟩)
        show (if float64Max < v then StoredValue.inf else StoredValue.finite v) =
          StoredValue.finite v
        rw [if_neg (not_lt.mpr hsmall)]

/-- C4 witness: the shape-and-range theorem evaluated at the zero evaluator on
a 2×2 grid. -/
theorem c4_surface_shape_and_entries_witness :
    (surfaceZ64 zeroEvaluator.eval (2/5) (3/5) 30 2 2).map List.length =
      List.replicate 2 2 ∧
    ∀ row ∈ surfaceZ64 zeroEvaluator.eval (2/5) (3/5) 30 2 2,
      ∀ e ∈ row, e = StoredValue.nan ∨ e = StoredValue.inf ∨
        ∃ v, e = StoredValue.finite v ∧ 0 ≤ v ∧ v ≤ float64Max :=
  c4_surface_shape_and_entries zeroEvaluator (2/5) (3/5) 30 2 2

/-- C5 counterexample: the claim says inputs with inverted bounds or a
resolution below 2 are "rejected with an input error before any zeta evaluation
begins; no surface entries are computed". With σ-bounds inverted (1 > 0) and
σ-resolution 1 < 2, the call is not rejected: it produces the degenerate
σ-vector `[1]` and computes both surface entries by calling the evaluator. -/
theorem c5_counterexample :
    (0 : ℚ) < 1 ∧ (1 : ℕ) < 2 ∧
    (compute_zeta_surface (fun _ _ => (some 1 : Option ℚ)) 1 0 10 1 2).sigma_values =
      [1] ∧
    (compute_zeta_surface (fun _ _ => (some 1 : Option ℚ)) 1 0 10 1 2).Z.map
      List.length = List.replicate 2 1 ∧
    ∃ row,
      (compute_zeta_surface (fun _ _ => (some 1 : Option ℚ)) 1 0 10 1 2).Z[0]? =
        some row ∧ row[0]? = some (some 1) := by
  refine ⟨by norm_num, by norm_num, ?_, surface_Z_shape _ _ _ _ _ _, ?_⟩
  · show linspace (sigma_min_adj 1) (sigma_max_adj 0) 1 = [1]
    have h1 : sigma_min_adj 1 = 1 := max_eq_right (by norm_num)
    unfold linspace
    rw [if_neg (by omega), if_pos rfl, h1]
  · obtain ⟨t, σ, row, _, _, hz, hr⟩ :=
      surface_entry (fun _ _ => (some 1 : Option ℚ)) 1 0 10 1 2 0 0
        (by norm_num) (by norm_num)
    exact ⟨row, hz, hr⟩

/-- C5 (amended): `compute_zeta_surface` performs no input validation at all:
even for inverted σ-bounds or resolutions below 2 it runs the full sweep,
returning a surface of shape `(nt, nσ)` and emitting its completion signal
(invalid inputs are only prevented upstream, by the UI slider ranges). -/
theorem c5_no_validation (f : ℚ → ℚ → Option ℚ)
    (sigma_min sigma_max t_max : ℚ) (nσ nt : ℕ)
    (_h : sigma_max < sigma_min ∨ nσ < 2 ∨ nt < 2) :
    (compute_zeta_surface f sigma_min sigma_max t_max nσ nt).Z.map List.length =
      List.replicate nt nσ ∧
    (compute_zeta_surface f sigma_min sigma_max t_max nσ nt).progress.getLast? =
      some ProgressEvent.clear := by
  refine ⟨surface_Z_shape _ _ _ _ _ _, ?_⟩
  rw [surface_progress_eq]
  exact progressTrace_getLast? _

/-- C5 witness: the no-validation theorem evaluated at the inverted, degenerate
input `σ ∈ [1, 0]`, σ-resolution 1. -/
theorem c5_no_validation_witness :
    ((0 : ℚ) < 1 ∨ (1 : ℕ) < 2 ∨ (2 : ℕ) < 2) ∧
    ((compute_zeta_surface (fun _ _ => (some 1 : Option ℚ)) 1 0 10 1 2).Z.map
        List.length = List.replicate 2 1 ∧
     (compute_zeta_surface (fun _ _ => (some 1 : Option ℚ)) 1 0 10 1 2).progress.getLast? =
        some ProgressEvent.clear) :=
  ⟨Or.inl (by norm_num),
    c5_no_validation (fun _ _ => (some 1 : Option ℚ)) 1 0 10 1 2
      (Or.inl (by norm_num))⟩

/-- C6 counterexample: the claim says a critical-line evaluation failure is
contained per-point "with no exception escaping the call". With an evaluator
that raises everywhere and the range `[0, 1]` (which contains 0.5), the whole
`create_zeta_plot` call aborts — no figure, and no sample with NaN entries, is
produced — because lines 71-73 have no try/except. -/
theorem c6_counterexample :
    create_zeta_plot (fun _ _ => (none : Option ℚ)) 0 1 10 2 2 = none := by
  simp only [create_zeta_plot]
  rw [if_pos ⟨by norm_num [critical_sigma], by norm_num [critical_sigma]⟩,
    evalAll_eq_none_of_mem
      (fun t => (fun _ _ => (none : Option ℚ)) critical_sigma t) _ (1/10)
      (mem_critical_line_t_head 10) rfl]

/-- C6 (amended): the critical-line pass has NO per-point failure containment:
if the evaluator raises at any sampled point of the critical line (and 0.5 is
inside the requested σ-range), the exception propagates out of
`create_zeta_plot` and aborts it; only the main grid sweep maps failures to the
NaN sentinel. -/
theorem c6_critical_line_no_containment (f : ℚ → ℚ → Option ℚ)
    (sigma_min sigma_max t_max : ℚ) (nσ nt : ℕ) (t : ℚ)
    (h1 : sigma_min ≤ critical_sigma) (h2 : critical_sigma ≤ sigma_max)
    (ht : t ∈ critical_line_t t_max) (hf : f critical_sigma t = none) :
    create_zeta_plot f sigma_min sigma_max t_max nσ nt = none := by
  simp only [create_zeta_plot]
  rw [if_pos ⟨h1, h2⟩,
    evalAll_eq_none_of_mem (fun t => f critical_sigma t) _ t ht hf]

/-- C6 witness: the no-containment theorem evaluated for the everywhere-raising
evaluator at the first critical-line sample point `t = 0.1`. -/
theorem c6_critical_line_no_containment_witness :
    ((0 : ℚ) ≤ critical_sigma ∧ critical_sigma ≤ (1 : ℚ) ∧
      (1/10 : ℚ) ∈ critical_line_t 10 ∧
      (fun _ _ => (none : Option ℚ)) critical_sigma (1/10 : ℚ) = none) ∧
    create_zeta_plot (fun _ _ => (none : Option ℚ)) 0 1 10 2 2 = none :=
  ⟨⟨by norm_num [critical_sigma], by norm_num [critical_sigma],
      mem_critical_line_t_head 10, rfl⟩,
    c6_critical_line_no_containment (fun _ _ => (none : Option ℚ)) 0 1 10 2 2 (1/10)
      (by norm_num [critical_sigma]) (by norm_num [critical_sigma])
      (mem_critical_line_t_head 10) rfl⟩

/-- C7 counterexample: the claim says that for all valid ranges (min ≤ max) the
coordinate vectors are strictly monotonically increasing; but for the valid
request `σ_min = σ_max = 0.5` the σ-vector is the constant `[0.5, 0.5]`, which
is not strictly increasing. -/
theorem c7_counterexample :
    (1/2 : ℚ) ≤ 1/2 ∧
    sigma_values (1/2) (1/2) 2 = [1/2, 1/2] ∧
    ¬ (sigma_values (1/2) (1/2) 2).Pairwise (· < ·) := by
  have hv : sigma_values (1/2) (1/2) 2 = [1/2, 1/2] := by
    show linspace (sigma_min_adj (1/2)) (sigma_max_adj (1/2)) 2 = [1/2, 1/2]
    have h1 : sigma_min_adj (1/2) = 1/2 := max_eq_right (by norm_num)
    have h2 : sigma_max_adj (1/2) = 1/2 := by
      unfold sigma_max_adj
      rw [if_neg (by norm_num)]
    rw [h1, h2, linspace_eq_map _ _ 2 (by norm_num)]
    norm_num [List.range_succ]
  refine ⟨le_refl _, hv, ?_⟩
  intro hpw
  rw [hv] at hpw
  have hlt : (1/2 : ℚ) < 1/2 :=
    (List.pairwise_cons.mp hpw).1 (1/2) (List.mem_singleton.mpr rfl)
  exact lt_irrefl _ hlt

/-- C7 (amended): for all inputs with both resolutions ≥ 2, both coordinate
vectors have exactly `resolution` entries, include both (clamped) endpoints,
and are evenly spaced with the linspace step; they are strictly monotonically
increasing provided the clamped bounds are strictly ordered
(`max(0.01, σ_min) < σ_max_adj` for σ, `0.1 < t_max` for t). -/
theorem c7_coordinate_vectors (sigma_min sigma_max t_max : ℚ) (nσ nt : ℕ)
    (hnσ : 2 ≤ nσ) (hnt : 2 ≤ nt) :
    (sigma_values sigma_min sigma_max nσ).length = nσ ∧
    (t_values t_max nt).length = nt ∧
    (sigma_values sigma_min sigma_max nσ).head? = some (sigma_min_adj sigma_min) ∧
    (sigma_values sigma_min sigma_max nσ).getLast? = some (sigma_max_adj sigma_max) ∧
    (t_values t_max nt).head? = some (1/10) ∧
    (t_values t_max nt).getLast? = some t_max ∧
    List.Chain' (fun x y => y - x =
        (sigma_max_adj sigma_max - sigma_min_adj sigma_min) / ((nσ - 1 : ℕ) : ℚ))
      (sigma_values sigma_min sigma_max nσ) ∧
    List.Chain' (fun x y => y - x = (t_max - 1/10) / ((nt - 1 : ℕ) : ℚ))
      (t_values t_max nt) ∧
    (sigma_min_adj sigma_min < sigma_max_adj sigma_max →
      (sigma_values sigma_min sigma_max nσ).Pairwise (· < ·)) ∧
    ((1/10 : ℚ) < t_max → (t_values t_max nt).Pairwise (· < ·)) :=
  ⟨sigma_values_length _ _ _,
   t_values_length _ _,
   linspace_head? _ _ _ (by omega),
   linspace_getLast? _ _ _ hnσ,
   linspace_head? _ _ _ (by omega),
   linspace_getLast? _ _ _ hnt,
   linspace_even_spacing _ _ _ hnσ,
   linspace_even_spacing _ _ _ hnt,
   fun hσ => linspace_pairwise_lt _ _ _ hσ,
   fun ht => linspace_pairwise_lt _ _ _ ht⟩

/-- C7 witness: the coordinate-vector theorem evaluated at the request
`σ ∈ [0.4, 0.6]`, `t_max = 30`, resolutions 3 and 3. -/
theorem c7_coordinate_vectors_witness :
    (2 ≤ 3 ∧ 2 ≤ 3) ∧
    ((sigma_values (2/5) (3/5) 3).length = 3 ∧
     (t_values 30 3).length = 3 ∧
     (sigma_values (2/5) (3/5) 3).head? = some (sigma_min_adj (2/5)) ∧
     (sigma_values (2/5) (3/5) 3).getLast? = some (sigma_max_adj (3/5)) ∧
     (t_values 30 3).head? = some (1/10) ∧
     (t_values 30 3).getLast? = some 30 ∧
     List.Chain' (fun x y => y - x =
         (sigma_max_adj (3/5) - sigma_min_adj (2/5)) / ((3 - 1 : ℕ) : ℚ))
       (sigma_values (2/5) (3/5) 3) ∧
     List.Chain' (fun x y => y - x = ((30 : ℚ) - 1/10) / ((3 - 1 : ℕ) : ℚ))
       (t_values 30 3) ∧
     (sigma_min_adj (2/5) < sigma_max_adj (3/5) →
       (sigma_values (2/5) (3/5) 3).Pairwise (· < ·)) ∧
     ((1/10 : ℚ) < 30 → (t_values 30 3).Pairwise (· < ·))) :=
  ⟨⟨by norm_num, by norm_num⟩,
    c7_coordinate_vectors (2/5) (3/5) 30 3 3 (by norm_num) (by norm_num)⟩

/-- C8: for every invocation meeting the interface's resolution contract
(t-resolution ≥ 2), the t-coordinate vector starts at the fixed offset `0.1`
(the code has no requested-lower-bound parameter at all) and ends at the
caller's requested `t_max`. -/
theorem c8_t_vector_endpoints (t_max : ℚ) (nt : ℕ) (h : 2 ≤ nt) :
    (t_values t_max nt).head? = some (1/10) ∧
    (t_values t_max nt).getLast? = some t_max :=
  ⟨linspace_head? _ _ _ (by omega), linspace_getLast? _ _ _ h⟩

/-- C8 witness: the endpoint theorem evaluated at `t_max = 30` with 2
t-points. -/
theorem c8_t_vector_endpoints_witness :
    2 ≤ 2 ∧
    ((t_values 30 2).head? = some (1/10) ∧ (t_values 30 2).getLast? = some 30) :=
  ⟨by norm_num, c8_t_vector_endpoints 30 2 (by norm_num)⟩

/-- C9: the progress trace of a sweep is the initial zero report, then one
report per 100 evaluated points with fraction `completed / total`, then the
clear signal: the reported fractions are non-decreasing and never exceed 1,
consecutive reports are at least 100 evaluated points apart, and the last
event before the call returns is the explicit done/clear signal. -/
theorem c9_progress_reporting (f : ℚ → ℚ → Option ℚ)
    (sigma_min sigma_max t_max : ℚ) (nσ nt : ℕ) :
    (compute_zeta_surface f sigma_min sigma_max t_max nσ nt).progress =
      progressTrace (nt * nσ) ∧
    List.Chain' (· ≤ ·)
      (reportedFractions
        (compute_zeta_surface f sigma_min sigma_max t_max nσ nt).progress) ∧
    (∀ q ∈ reportedFractions
        (compute_zeta_surface f sigma_min sigma_max t_max nσ nt).progress, q ≤ 1) ∧
    List.Chain' (fun a b => a + 100 ≤ b) (0 :: reportCounts (nt * nσ)) ∧
    (compute_zeta_surface f sigma_min sigma_max t_max nσ nt).progress.getLast? =
      some ProgressEvent.clear := by
  have hp := surface_progress_eq f sigma_min sigma_max t_max nσ nt
  refine ⟨hp, ?_, ?_, reportCounts_cadence _, ?_⟩
  · rw [hp]
    exact reportedFractions_progressTrace_chain _
  · rw [hp]
    intro q hq
    exact reportedFractions_progressTrace_le_one _ q hq
  · rw [hp]
    exact progressTrace_getLast? _

/-- C9 witness: the progress theorem evaluated at the zero evaluator on a 2×2
grid. -/
theorem c9_progress_reporting_witness :
    (compute_zeta_surface (fun _ _ => (some 0 : Option ℚ)) (2/5) (3/5) 30 2 2).progress =
      progressTrace (2 * 2) ∧
    List.Chain' (· ≤ ·)
      (reportedFractions
        (compute_zeta_surface (fun _ _ => (some 0 : Option ℚ)) (2/5) (3/5) 30 2 2).progress) ∧
    (∀ q ∈ reportedFractions
        (compute_zeta_surface (fun _ _ => (some 0 : Option ℚ)) (2/5) (3/5) 30 2 2).progress,
      q ≤ 1) ∧
    List.Chain' (fun a b => a + 100 ≤ b) (0 :: reportCounts (2 * 2)) ∧
    (compute_zeta_surface (fun _ _ => (some 0 : Option ℚ))
        (2/5) (3/5) 30 2 2).progress.getLast? = some ProgressEvent.clear :=
  c9_progress_reporting (fun _ _ => (some 0 : Option ℚ)) (2/5) (3/5) 30 2 2

/-- C10: whenever the critical-line sample is produced (0.5 inside the
requested σ-range), its t-coordinate vector is exactly the hard-coded
`np.linspace(0.1, t_max, 100)`: 100 points from `0.1` to the requested
`t_max`, taking no resolution parameters from the main grid. -/
theorem c10_critical_line_resolution (f : ℚ → ℚ → Option ℚ)
    (sigma_min sigma_max t_max : ℚ) (nσ nt : ℕ)
    (r : SurfaceResult) (cl : CriticalLine)
    (h1 : sigma_min ≤ critical_sigma) (h2 : critical_sigma ≤ sigma_max)
    (hproduced : create_zeta_plot f sigma_min sigma_max t_max nσ nt = some (r, cl)) :
    cl.y = critical_line_t t_max ∧ cl.y.length = 100 ∧
    cl.y.head? = some (1/10) ∧ cl.y.getLast? = some t_max := by
  simp only [create_zeta_plot] at hproduced
  rw [if_pos ⟨h1, h2⟩] at hproduced
  cases hev : evalAll (fun t => f critical_sigma t) (critical_line_t t_max) with
  | none =>
    rw [hev] at hproduced
    cases hproduced
  | some zs =>
    rw [hev] at hproduced
    injection hproduced with hpair
    obtain ⟨hr, hcl⟩ := Prod.mk.inj hpair
    subst hcl
    refine ⟨rfl, ?_, ?_, ?_⟩
    · show (critical_line_t t_max).length = 100
      exact linspace_length _ _ _
    · show (critical_line_t t_max).head? = some (1/10)
      exact linspace_head? _ _ _ (by norm_num)
    · show (critical_line_t t_max).getLast? = some t_max
      exact linspace_getLast? _ _ _ (by norm_num)

/-- C10 witness: the resolution theorem evaluated at the zero evaluator with
requested range `[0.4, 0.6]` and `t_max = 10`. -/
theorem c10_critical_line_resolution_witness :
    ((2/5 : ℚ) ≤ critical_sigma ∧ critical_sigma ≤ (3/5 : ℚ) ∧
      create_zeta_plot (fun _ _ => (some 0 : Option ℚ)) (2/5) (3/5) 10 2 2 =
        some (compute_zeta_surface (fun _ _ => (some 0 : Option ℚ)) (2/5) (3/5) 10 2 2,
          { x := (critical_line_t 10).map (fun _ => critical_sigma)
            y := critical_line_t 10
            z := (critical_line_t 10).map (fun _ => 0) })) ∧
    (({ x := (critical_line_t 10).map (fun _ => critical_sigma)
        y := critical_line_t 10
        z := (critical_line_t 10).map (fun _ => 0) } : CriticalLine).y =
          critical_line_t 10 ∧
     ({ x := (critical_line_t 10).map (fun _ => critical_sigma)
        y := critical_line_t 10
        z := (critical_line_t 10).map (fun _ => 0) } : CriticalLine).y.length = 100 ∧
     ({ x := (critical_line_t 10).map (fun _ => critical_sigma)
        y := critical_line_t 10
        z := (critical_line_t 10).map (fun _ => 0) } : CriticalLine).y.head? =
          some (1/10) ∧
     ({ x := (critical_line_t 10).map (fun _ => critical_sigma)
        y := critical_line_t 10
        z := (critical_line_t 10).map (fun _ => 0) } : CriticalLine).y.getLast? =
          some 10) :=
  by
  have h1 : (2/5 : ℚ) ≤ critical_sigma := by norm_num [critical_sigma]
  have h2 : critical_sigma ≤ (3/5 : ℚ) := by norm_num [critical_sigma]
  have hprod : create_zeta_plot (fun _ _ => (some 0 : Option ℚ)) (2/5) (3/5) 10 2 2 =
      some (compute_zeta_surface (fun _ _ => (some 0 : Option ℚ)) (2/5) (3/5) 10 2 2,
        { x := (critical_line_t 10).map (fun _ => critical_sigma)
          y := critical_line_t 10
          z := (critical_line_t 10).map (fun _ => 0) }) := by
    simp only [create_zeta_plot]
    rw [if_pos ⟨h1, h2⟩, evalAll_const]
  exact ⟨⟨h1, h2, hprod⟩,
    c10_critical_line_resolution (fun _ _ => (some 0 : Option ℚ)) (2/5) (3/5) 10 2 2
      (compute_zeta_surface (fun _ _ => (some 0 : Option ℚ)) (2/5) (3/5) 10 2 2)
      { x := (critical_line_t 10).map (fun _ => critical_sigma)
        y := critical_line_t 10
        z := (critical_line_t 10).map (fun _ => 0) }
      h1 h2 hprod⟩

end Riemman3D
